import Mathlib

/-!
# PantherWM: the window-management core

A shallow embedding of `src/src/WindowManager.cpp`.  Every handler of the
C++ class becomes a function from the manager's state (and the replies the X
server gives to the queries the handler makes) to an `Outcome`: the ordered
list of Xlib calls the handler issued, and the state it left, or no state when
a glog `CHECK` aborted the process.

Signed `int` values are exact integers (signed overflow is undefined in C++,
so there is no wrap-around to model); X identifiers, masks and atoms are
natural numbers.
-/

namespace PantherWM

/-! ## X11 vocabulary (values of X.h / keysymdef.h) -/

abbrev Window := Nat
abbrev Atom := Nat

def XNone : Nat := 0
def Button1 : Nat := 1
def Button3 : Nat := 3
def Mod1Mask : Nat := 8
def Button1Mask : Nat := 256
def Button3Mask : Nat := 1024
def ButtonPressMask : Nat := 4
def ButtonReleaseMask : Nat := 8
def ButtonMotionMask : Nat := 8192
def SubstructureNotifyMask : Nat := 524288
def SubstructureRedirectMask : Nat := 1048576
def GrabModeAsync : Nat := 1
def IsViewable : Int := 2
def BadAccess : Nat := 10
def RevertToPointerRoot : Nat := 1
def CurrentTime : Nat := 0
def ClientMessage : Nat := 33
def MotionNotifyType : Nat := 6
def XK_F4 : Nat := 0xffc1
def XK_Tab : Nat := 0xff09

/-- The two names the constructor interns. -/
inductive AtomName where
  | WM_PROTOCOLS
  | WM_DELETE_WINDOW
  deriving DecidableEq, Repr

/-! ## Util.hpp value types -/

/-- Modelled from the spec: `Position<int>` of Util.hpp (not among the sources),
a pointer or window position. -/
structure Position where
  x : Int
  y : Int
  deriving DecidableEq, Repr

/-- Modelled from the spec: `Size<int>` of Util.hpp (not among the sources). -/
structure Size where
  width : Int
  height : Int
  deriving DecidableEq, Repr

/-- Modelled from the spec: `Vector2D<int>` of Util.hpp (not among the sources),
the difference of two positions. -/
structure Vector2D where
  x : Int
  y : Int
  deriving DecidableEq, Repr

/-- Modelled from the spec: `Position - Position` of Util.hpp, the componentwise
pointer delta ("current pointer − drag-start pointer"). -/
def Position.sub (a b : Position) : Vector2D := ⟨a.x - b.x, a.y - b.y⟩

/-- Modelled from the spec: `Position + Vector2D` of Util.hpp, componentwise
("added to drag-start frame position"). -/
def Position.addVec (p : Position) (v : Vector2D) : Position := ⟨p.x + v.x, p.y + v.y⟩

/-- Modelled from the spec: `Size + Vector2D` of Util.hpp, componentwise
("resize by the same delta"). -/
def Size.addVec (s : Size) (v : Vector2D) : Size := ⟨s.width + v.x, s.height + v.y⟩

/-! ## Events -/

structure XUnmapEvent where
  event : Window
  window : Window
  deriving DecidableEq, Repr

structure XMapRequestEvent where
  parent : Window
  window : Window
  deriving DecidableEq, Repr

structure XConfigureRequestEvent where
  parent : Window
  window : Window
  x : Int
  y : Int
  width : Int
  height : Int
  border_width : Int
  above : Window
  detail : Int
  value_mask : Nat
  deriving DecidableEq, Repr

structure XButtonEvent where
  window : Window
  x_root : Int
  y_root : Int
  state : Nat
  button : Nat
  deriving DecidableEq, Repr

structure XMotionEvent where
  window : Window
  x_root : Int
  y_root : Int
  state : Nat
  deriving DecidableEq, Repr

structure XKeyEvent where
  window : Window
  state : Nat
  keycode : Nat
  deriving DecidableEq, Repr

/-- The event union, by the `type` the reactor switches on. -/
inductive XEvent where
  | CreateNotify (window : Window)
  | DestroyNotify (window : Window)
  | ReparentNotify (window : Window)
  | MapNotify (window : Window)
  | UnmapNotify (e : XUnmapEvent)
  | ConfigureNotify (window : Window)
  | ConfigureRequest (e : XConfigureRequestEvent)
  | MapRequest (e : XMapRequestEvent)
  | ButtonPress (e : XButtonEvent)
  | ButtonRelease (e : XButtonEvent)
  | MotionNotify (e : XMotionEvent)
  | KeyPress (e : XKeyEvent)
  | KeyRelease (e : XKeyEvent)
  | Other (type : Nat)
  deriving DecidableEq, Repr

/-! ## Transport calls -/

structure XWindowChanges where
  x : Int
  y : Int
  width : Int
  height : Int
  border_width : Int
  sibling : Window
  stack_mode : Int
  deriving DecidableEq, Repr

/-- The fields of the zeroed `XEvent msg` that the close shortcut fills in. -/
structure XClientMessageEvent where
  type : Nat
  message_type : Atom
  window : Window
  format : Nat
  data0 : Atom
  deriving DecidableEq, Repr

inductive ErrorHandler where
  | OnWMDetected
  | OnXError
  deriving DecidableEq, Repr

/-- One Xlib call, with the arguments the manager passes.  A call that returns a
window id (`XCreateSimpleWindow`) also records the id the server returned. -/
inductive Call where
  | XSetErrorHandler (h : ErrorHandler)
  | XSelectInput (w : Window) (mask : Nat)
  | XSync
  | XGrabServer
  | XUngrabServer
  | XQueryTree (w : Window)
  | XFree
  | XNextEvent
  | XCheckTypedWindowEvent (w : Window) (type : Nat)
  | XGetWindowAttributes (w : Window)
  | XCreateSimpleWindow (parent : Window) (x y width height : Int)
      (border_width border background : Nat) (ret : Window)
  | XAddToSaveSet (w : Window)
  | XRemoveFromSaveSet (w : Window)
  | XReparentWindow (w parent : Window) (x y : Int)
  | XMapWindow (w : Window)
  | XUnmapWindow (w : Window)
  | XDestroyWindow (w : Window)
  | XGrabButton (button modifiers : Nat) (w : Window) (owner_events : Bool)
      (event_mask pointer_mode keyboard_mode : Nat) (confine_to cursor : Nat)
  | XKeysymToKeycode (keysym : Nat)
  | XGrabKey (keycode modifiers : Nat) (w : Window) (owner_events : Bool)
      (pointer_mode keyboard_mode : Nat)
  | XConfigureWindow (w : Window) (value_mask : Nat) (changes : XWindowChanges)
  | XGetGeometry (w : Window)
  | XRaiseWindow (w : Window)
  | XMoveWindow (w : Window) (x y : Int)
  | XResizeWindow (w : Window) (width height : Int)
  | XGetWMProtocols (w : Window)
  | XSendEvent (w : Window) (propagate : Bool) (event_mask : Nat) (msg : XClientMessageEvent)
  | XKillClient (w : Window)
  | XSetInputFocus (w : Window) (revert_to time : Nat)
  deriving DecidableEq, Repr

/-! ## Server replies -/

/-- The fields of `XWindowAttributes` that `Frame` reads. -/
structure XWindowAttributes where
  x : Int
  y : Int
  width : Int
  height : Int
  override_redirect : Bool
  map_state : Int
  deriving DecidableEq, Repr

/-- The out-parameters of `XGetGeometry` that `OnButtonPress` reads. -/
structure Geometry where
  x : Int
  y : Int
  width : Nat
  height : Nat
  deriving DecidableEq, Repr

/-- What the server answers to the queries one handler invocation can make.
`none` is a zero status. `protocols` is the array `XGetWMProtocols` hands back:
its address and its elements. -/
structure Replies where
  attrs : Option XWindowAttributes
  frame : Window
  geometry : Option Geometry
  protocols : Option (Nat × List Atom)
  sendStatus : Bool
  queuedMotion : List XMotionEvent
  keysymToKeycode : Nat → Nat

/-! ## The client table

`clients_` is declared in WindowManager.hpp, which is not among the sources.
The table is kept as its entries in iteration order; where a new key lands in
that order is the container's business and is a parameter (`place`). -/

abbrev ClientTable := List (Window × Window)

/-- Embeds `clients_.count(w)` as a truth value. -/
def count (t : ClientTable) (w : Window) : Bool :=
  t.any (fun p => p.1 == w)

/-- Embeds `clients_.find(w)`: the frame of the entry, if any. -/
def find (t : ClientTable) (w : Window) : Option Window :=
  match t with
  | [] => none
  | (k, f) :: rest => if k = w then some f else find rest w

/-- Embeds `clients_[w]` read on a key that is present (a missing key reads the
value-initialised `Window`, 0). -/
def at_ (t : ClientTable) (w : Window) : Window :=
  (find t w).getD 0

/-- Replace the value of an existing key in place. -/
def setValue (t : ClientTable) (w f : Window) : ClientTable :=
  t.map (fun p => if p.1 = w then (p.1, f) else p)

/-- Embeds `clients_[w] = f`: overwrite in place for a key that is present, insert
at the container's position otherwise. -/
def assign (place : Window → ClientTable → Nat) (t : ClientTable) (w f : Window) :
    ClientTable :=
  if count t w then setValue t w f
  else t.take (place w t) ++ (w, f) :: t.drop (place w t)

/-- Embeds `clients_.erase(w)`. -/
def erase (t : ClientTable) (w : Window) : ClientTable :=
  t.filter (fun p => p.1 != w)

/-- The keys in iteration order. -/
def keys (t : ClientTable) : List Window := t.map Prod.fst

/-- The frames in iteration order. -/
def frames (t : ClientTable) : List Window := t.map Prod.snd

/-- Embeds `i = find(w); ++i; if (i == end()) i = begin();` with `first` the entry at
`begin()`: the entry after the one with key `w`, wrapping to `first`; `none`
when `find` returned `end()`. -/
def successor (first : Window × Window) : ClientTable → Window → Option (Window × Window)
  | [], _ => none
  | (k, _) :: rest, w =>
    if k = w then
      match rest with
      | [] => some first
      | nxt :: _ => some nxt
    else successor first rest w

/-! ## The manager -/

structure WindowManager where
  root_ : Window
  WM_PROTOCOLS : Atom
  WM_DELETE_WINDOW : Atom
  clients_ : ClientTable
  drag_start_pos_ : Position
  drag_start_frame_pos_ : Position
  drag_start_frame_size_ : Size
  deriving DecidableEq, Repr

/-- The constructor: both atom members are interned from the name
`WM_DELETE_WINDOW` (lines 27-28). -/
def WindowManager.new (root : Window) (internAtom : AtomName → Atom) : WindowManager :=
  { root_ := root
    WM_PROTOCOLS := internAtom AtomName.WM_DELETE_WINDOW
    WM_DELETE_WINDOW := internAtom AtomName.WM_DELETE_WINDOW
    clients_ := []
    drag_start_pos_ := ⟨0, 0⟩
    drag_start_frame_pos_ := ⟨0, 0⟩
    drag_start_frame_size_ := ⟨0, 0⟩ }

/-- What a handler did: the calls it issued, in order, and the state it
returned with; `next = none` when a `CHECK` failed and aborted the process. -/
structure Outcome where
  calls : List Call
  next : Option WindowManager
  deriving DecidableEq, Repr

def Outcome.ok (calls : List Call) (wm : WindowManager) : Outcome := ⟨calls, some wm⟩

def Outcome.abort (calls : List Call) : Outcome := ⟨calls, none⟩

/-- Sequencing: run `k` on the state `o` returned with, unless `o` aborted. -/
def Outcome.andThen (o : Outcome) (k : WindowManager → Outcome) : Outcome :=
  match o.next with
  | none => o
  | some wm => ⟨o.calls ++ (k wm).calls, (k wm).next⟩

/-- The calls of `Frame` past the skip test, lines 156-231. -/
def frameCalls (r : Replies) (root w : Window) (a : XWindowAttributes) : List Call :=
  [ Call.XCreateSimpleWindow root a.x a.y a.width a.height 3 0xff0000 0x0000ff r.frame,
    Call.XSelectInput r.frame (SubstructureRedirectMask ||| SubstructureNotifyMask),
    Call.XAddToSaveSet w,
    Call.XReparentWindow w r.frame 0 0,
    Call.XMapWindow r.frame,
    Call.XGrabButton Button1 Mod1Mask w false
      (ButtonPressMask ||| ButtonReleaseMask ||| ButtonMotionMask)
      GrabModeAsync GrabModeAsync XNone XNone,
    Call.XGrabButton Button3 Mod1Mask w false
      (ButtonPressMask ||| ButtonReleaseMask ||| ButtonMotionMask)
      GrabModeAsync GrabModeAsync XNone XNone,
    Call.XKeysymToKeycode XK_F4,
    Call.XGrabKey (r.keysymToKeycode XK_F4) Mod1Mask w false GrabModeAsync GrabModeAsync,
    Call.XKeysymToKeycode XK_Tab,
    Call.XGrabKey (r.keysymToKeycode XK_Tab) Mod1Mask w false GrabModeAsync GrabModeAsync ]

/-- Embeds `WindowManager::Frame` (lines 140-234).  The `int` geometry passed to
`XCreateSimpleWindow` is recorded as is. -/
def Frame (place : Window → ClientTable → Nat) (r : Replies) (wm : WindowManager)
    (w : Window) (was_created_before_window_manager : Bool) : Outcome :=
  if count wm.clients_ w then Outcome.abort []
  else
    match r.attrs with
    | none => Outcome.abort [Call.XGetWindowAttributes w]
    | some a =>
      if was_created_before_window_manager
          && (a.override_redirect || a.map_state != IsViewable) then
        Outcome.ok [Call.XGetWindowAttributes w] wm
      else
        Outcome.ok (Call.XGetWindowAttributes w :: frameCalls r wm.root_ w a)
          { wm with clients_ := assign place wm.clients_ w r.frame }

/-- Embeds `WindowManager::Unframe` (lines 236-257). -/
def Unframe (wm : WindowManager) (w : Window) : Outcome :=
  if count wm.clients_ w then
    Outcome.ok
      [ Call.XUnmapWindow (at_ wm.clients_ w),
        Call.XReparentWindow w wm.root_ 0 0,
        Call.XRemoveFromSaveSet w,
        Call.XDestroyWindow (at_ wm.clients_ w) ]
      { wm with clients_ := erase wm.clients_ w }
  else Outcome.abort []

/-- Embeds `WindowManager::OnUnmapNotify` (lines 267-280). -/
def OnUnmapNotify (wm : WindowManager) (e : XUnmapEvent) : Outcome :=
  if !count wm.clients_ e.window then Outcome.ok [] wm
  else if e.event = wm.root_ then Outcome.ok [] wm
  else Unframe wm e.window

/-- Embeds `WindowManager::OnMapRequest` (lines 284-287). -/
def OnMapRequest (place : Window → ClientTable → Nat) (r : Replies) (wm : WindowManager)
    (e : XMapRequestEvent) : Outcome :=
  (Frame place r wm e.window false).andThen
    (fun wm1 => Outcome.ok [Call.XMapWindow e.window] wm1)

/-- The `XWindowChanges` that `OnConfigureRequest` fills in. -/
def changesOf (e : XConfigureRequestEvent) : XWindowChanges :=
  { x := e.x
    y := e.y
    width := e.width
    height := e.height
    border_width := e.border_width
    sibling := e.above
    stack_mode := e.detail }

/-- Embeds `WindowManager::OnConfigureRequest` (lines 289-307).  The value mask
is a 16-bit field of the request, so handing the event's `unsigned long` to the
`unsigned int` parameter of `XConfigureWindow` keeps its value. -/
def OnConfigureRequest (wm : WindowManager) (e : XConfigureRequestEvent) : Outcome :=
  if count wm.clients_ e.window then
    Outcome.ok
      [ Call.XConfigureWindow (at_ wm.clients_ e.window) e.value_mask (changesOf e),
        Call.XConfigureWindow e.window e.value_mask (changesOf e) ]
      wm
  else
    Outcome.ok [Call.XConfigureWindow e.window e.value_mask (changesOf e)] wm

/-- Embeds `WindowManager::OnButtonPress` (lines 309-333).  The unsigned width
and height `XGetGeometry` reports are stored in the `int` size as they are. -/
def OnButtonPress (r : Replies) (wm : WindowManager) (e : XButtonEvent) : Outcome :=
  if count wm.clients_ e.window then
    match r.geometry with
    | none => Outcome.abort [Call.XGetGeometry (at_ wm.clients_ e.window)]
    | some g =>
      Outcome.ok
        [ Call.XGetGeometry (at_ wm.clients_ e.window),
          Call.XRaiseWindow (at_ wm.clients_ e.window) ]
        { wm with
          drag_start_pos_ := ⟨e.x_root, e.y_root⟩
          drag_start_frame_pos_ := ⟨g.x, g.y⟩
          drag_start_frame_size_ := ⟨(g.width : Int), (g.height : Int)⟩ }
  else Outcome.abort []

/-- Embeds `WindowManager::OnMotionNotify` (lines 337-370). -/
def OnMotionNotify (wm : WindowManager) (e : XMotionEvent) : Outcome :=
  if count wm.clients_ e.window then
    let frame := at_ wm.clients_ e.window
    let drag_pos : Position := ⟨e.x_root, e.y_root⟩
    let delta := drag_pos.sub wm.drag_start_pos_
    if e.state &&& Button1Mask ≠ 0 then
      let dest_frame_pos := wm.drag_start_frame_pos_.addVec delta
      Outcome.ok [Call.XMoveWindow frame dest_frame_pos.x dest_frame_pos.y] wm
    else if e.state &&& Button3Mask ≠ 0 then
      let size_delta : Vector2D :=
        ⟨max delta.x (-wm.drag_start_frame_size_.width),
         max delta.y (-wm.drag_start_frame_size_.height)⟩
      let dest_frame_size := wm.drag_start_frame_size_.addVec size_delta
      Outcome.ok
        [ Call.XResizeWindow frame dest_frame_size.width dest_frame_size.height,
          Call.XResizeWindow e.window dest_frame_size.width dest_frame_size.height ]
        wm
    else Outcome.ok [] wm
  else Outcome.abort []

/-- The width of an `Atom` (unsigned long) in bytes. -/
def sizeofAtom : Nat := 8

/-- Embeds `std::find(first, first + n, value)` over the array at address `first`
holding `atoms`: the address of the first element equal to `value`, or the
past-the-end address `first + n`. -/
def stdFind (first : Nat) (atoms : List Atom) (value : Atom) : Nat :=
  match atoms with
  | [] => first
  | a :: rest => if a = value then first else stdFind (first + sizeofAtom) rest value

/-- The message the close shortcut builds, lines 388-394. -/
def deleteMessage (wm : WindowManager) (w : Window) : XClientMessageEvent :=
  { type := ClientMessage
    message_type := wm.WM_PROTOCOLS
    window := w
    format := 32
    data0 := wm.WM_DELETE_WINDOW }

/-- The condition of line 376-386: the status of `XGetWMProtocols` and, when it
is non-zero, the pointer `std::find` returns converted to `bool`. -/
def closeGracefully (r : Replies) (wm : WindowManager) : Bool :=
  match r.protocols with
  | none => false
  | some (addr, atoms) => stdFind addr atoms wm.WM_DELETE_WINDOW != 0

/-- Embeds `WindowManager::OnKeyPress` (lines 372-412).  `XKeysymToKeycode` is
called only where the `&&` of the two tests reaches it. -/
def OnKeyPress (r : Replies) (wm : WindowManager) (e : XKeyEvent) : Outcome :=
  if e.state &&& Mod1Mask ≠ 0 then
    if e.keycode = r.keysymToKeycode XK_F4 then
      if closeGracefully r wm then
        if r.sendStatus then
          Outcome.ok
            [ Call.XKeysymToKeycode XK_F4,
              Call.XGetWMProtocols e.window,
              Call.XSendEvent e.window false 0 (deleteMessage wm e.window) ]
            wm
        else
          Outcome.abort
            [ Call.XKeysymToKeycode XK_F4,
              Call.XGetWMProtocols e.window,
              Call.XSendEvent e.window false 0 (deleteMessage wm e.window) ]
      else
        Outcome.ok
          [ Call.XKeysymToKeycode XK_F4,
            Call.XGetWMProtocols e.window,
            Call.XKillClient e.window ]
          wm
    else if e.keycode = r.keysymToKeycode XK_Tab then
      match successor (wm.clients_.headD (0, 0)) wm.clients_ e.window with
      | none => Outcome.abort [Call.XKeysymToKeycode XK_F4, Call.XKeysymToKeycode XK_Tab]
      | some i =>
        Outcome.ok
          [ Call.XKeysymToKeycode XK_F4,
            Call.XKeysymToKeycode XK_Tab,
            Call.XRaiseWindow i.2,
            Call.XSetInputFocus i.1 RevertToPointerRoot CurrentTime ]
          wm
    else Outcome.ok [Call.XKeysymToKeycode XK_F4, Call.XKeysymToKeycode XK_Tab] wm
  else Outcome.ok [] wm

/-! ## The reactor -/

/-- The loop of lines 121-122: `XCheckTypedWindowEvent` is called with the window
of the event currently held, and each queued motion event it hands back
replaces that event; the loop ends on the call that finds the queue empty. -/
def drainMotion (e : XMotionEvent) : List XMotionEvent → List Call × XMotionEvent
  | [] => ([Call.XCheckTypedWindowEvent e.window MotionNotifyType], e)
  | q :: rest =>
    (Call.XCheckTypedWindowEvent e.window MotionNotifyType :: (drainMotion q rest).1,
     (drainMotion q rest).2)

/-- The `switch (e.type)` of lines 79-136. -/
def dispatch (place : Window → ClientTable → Nat) (r : Replies) (wm : WindowManager)
    (e : XEvent) : Outcome :=
  match e with
  | XEvent.CreateNotify _ => Outcome.ok [] wm
  | XEvent.DestroyNotify _ => Outcome.ok [] wm
  | XEvent.ReparentNotify _ => Outcome.ok [] wm
  | XEvent.MapNotify _ => Outcome.ok [] wm
  | XEvent.UnmapNotify u => OnUnmapNotify wm u
  | XEvent.ConfigureNotify _ => Outcome.ok [] wm
  | XEvent.ConfigureRequest c => OnConfigureRequest wm c
  | XEvent.MapRequest m => OnMapRequest place r wm m
  | XEvent.ButtonPress b => OnButtonPress r wm b
  | XEvent.ButtonRelease _ => Outcome.ok [] wm
  | XEvent.MotionNotify m =>
    (Outcome.ok (drainMotion m r.queuedMotion).1 wm).andThen
      (fun wm1 => OnMotionNotify wm1 (drainMotion m r.queuedMotion).2)
  | XEvent.KeyPress k => OnKeyPress r wm k
  | XEvent.KeyRelease _ => Outcome.ok [] wm
  | XEvent.Other _ => Outcome.ok [] wm

/-- Embeds `WindowManager::OnWMDetected`: the new value of `wm_detected_`, or `none`
when `CHECK_EQ(error_code, BadAccess)` fails. -/
def OnWMDetected (error_code : Nat) : Option Bool :=
  if error_code = BadAccess then some true else none

/-- The part of the server state the manager's calls change: the parent each
window was last given, and the windows created and not destroyed since. -/
structure XServer where
  parent : Window → Option Window
  live : List Window

/-- The effect of one call on the server. -/
def XServer.apply (s : XServer) : Call → XServer
  | Call.XCreateSimpleWindow parent _ _ _ _ _ _ _ ret =>
    ⟨fun w => if w = ret then some parent else s.parent w, ret :: s.live⟩
  | Call.XReparentWindow w parent _ _ =>
    ⟨fun v => if v = w then some parent else s.parent v, s.live⟩
  | Call.XDestroyWindow w => ⟨s.parent, s.live.filter (fun v => v != w)⟩
  | _ => s

/-- A managed window 7 framed by 70, drag started at pointer (100, 100) on a
200x150 frame, pointer now far up and left of the start. -/
def resizeExample : WindowManager :=
  { root_ := 1
    WM_PROTOCOLS := 300
    WM_DELETE_WINDOW := 300
    clients_ := [(7, 70)]
    drag_start_pos_ := ⟨100, 100⟩
    drag_start_frame_pos_ := ⟨10, 20⟩
    drag_start_frame_size_ := ⟨200, 150⟩ }

/-- A press at (100, 100) on window 7, whose frame 70 sits at (10, 20). -/
def pressReplies : Replies :=
  { attrs := none
    frame := 0
    geometry := some ⟨10, 20, 200, 150⟩
    protocols := none
    sendStatus := true
    queuedMotion := []
    keysymToKeycode := fun _ => 0 }

/-- An empty manager on root 1. -/
def emptyManager : WindowManager :=
  WindowManager.new 1 (fun n => match n with
    | AtomName.WM_PROTOCOLS => 299
    | AtomName.WM_DELETE_WINDOW => 300)

/-- Replies for an unmapped (map state IsUnmapped) window and frame id 70. -/
def hiddenReplies : Replies :=
  { attrs := some ⟨0, 0, 640, 480, false, 0⟩
    frame := 70
    geometry := none
    protocols := none
    sendStatus := true
    queuedMotion := []
    keysymToKeycode := fun k => if k = XK_F4 then 70 else 23 }

/-- Window 7, framed by 70; the delete atom is 300. -/
def closeExample : WindowManager :=
  { emptyManager with clients_ := [(7, 70)] }

/-- The server's answers for a client whose WM_PROTOCOLS property holds the
single atom 301 (say WM_TAKE_FOCUS), stored at address 4096; F4 is keycode 70,
Tab is keycode 23. -/
def takeFocusOnlyReplies : Replies :=
  { attrs := none
    frame := 0
    geometry := none
    protocols := some (4096, [301])
    sendStatus := true
    queuedMotion := []
    keysymToKeycode := fun k => if k = XK_F4 then 70 else 23 }

/-- Windows 7 and 9, framed by 70 and 90, in that iteration order. -/
def cycleExample : WindowManager :=
  { emptyManager with clients_ := [(7, 70), (9, 90)] }

/-- The id a call created, for a frame-creation call. -/
def Call.created : Call → Option Window
  | Call.XCreateSimpleWindow _ _ _ _ _ _ _ _ ret => some ret
  | _ => none

/-- The window a destroy call destroys. -/
def Call.destroyed : Call → Option Window
  | Call.XDestroyWindow w => some w
  | _ => none

/-- The event is an UnmapNotify that makes `OnUnmapNotify` call `Unframe(w)`. -/
def unframes (root w : Window) : XEvent → Bool
  | XEvent.UnmapNotify u => u.window == w && u.event != root
  | _ => false

theorem count_eq_true_iff (t : ClientTable) (w : Window) :
    count t w = true ↔ w ∈ keys t := by
  induction t with
  | nil => simp [count, keys]
  | cons p rest ih =>
    simp only [count, keys, List.any_cons, Bool.or_eq_true, List.map_cons, List.mem_cons] at ih ⊢
    rw [ih]
    constructor
    · rintro (h | h)
      · left; exact (by simpa using h : p.1 = w).symm
      · right; exact h
    · rintro (h | h)
      · left; simpa using h.symm
      · right; exact h

theorem find_eq_none_iff (t : ClientTable) (w : Window) :
    find t w = none ↔ w ∉ keys t := by
  induction t with
  | nil => simp [find, keys]
  | cons p rest ih =>
    obtain ⟨k, f⟩ := p
    by_cases hk : k = w
    · simp [find, keys, hk]
    · simp only [find, hk, if_false, keys, List.map_cons, List.mem_cons, not_or] at ih ⊢
      rw [ih]
      constructor
      · intro h; exact ⟨fun e => hk e.symm, h⟩
      · intro h; exact h.2

theorem count_of_find {t : ClientTable} {w f : Window} (h : find t w = some f) :
    count t w = true := by
  rw [count_eq_true_iff]
  by_contra hn
  rw [← find_eq_none_iff] at hn
  rw [hn] at h
  exact Option.noConfusion h

theorem count_false_iff (t : ClientTable) (w : Window) :
    count t w = false ↔ find t w = none := by
  rw [find_eq_none_iff, ← count_eq_true_iff]
  simp

theorem at_of_find {t : ClientTable} {w f : Window} (h : find t w = some f) :
    at_ t w = f := by
  simp [at_, h]

theorem find_mem {t : ClientTable} {w f : Window} (h : find t w = some f) :
    (w, f) ∈ t := by
  induction t with
  | nil => simp [find] at h
  | cons p rest ih =>
    obtain ⟨k, g⟩ := p
    by_cases hk : k = w
    · simp only [find, hk, if_true, Option.some.injEq] at h
      subst hk; subst h
      exact List.mem_cons_self _ _
    · simp only [find, hk, if_false] at h
      exact List.mem_cons_of_mem _ (ih h)

theorem find_of_mem {t : ClientTable} {w f : Window} (hn : (keys t).Nodup)
    (h : (w, f) ∈ t) : find t w = some f := by
  induction t with
  | nil => simp at h
  | cons p rest ih =>
    obtain ⟨k, g⟩ := p
    simp only [keys, List.map_cons, List.nodup_cons] at hn
    rcases List.mem_cons.mp h with h | h
    · have hk : k = w := (Prod.mk.inj h).1.symm
      have hg : g = f := (Prod.mk.inj h).2.symm
      simp [find, hk, hg]
    · have hne : k ≠ w := by
        intro e
        apply hn.1
        rw [e]
        exact List.mem_map_of_mem Prod.fst h
      simp only [find, hne, if_false]
      exact ih hn.2 h

/-! ## Drag handling -/

/-- C2: on a managed window with the secondary button held and the primary
button not held, `OnMotionNotify` issues exactly two resize calls, the first on
the frame and the second on the client, both with width
`max 0 (start_width + dx)` and height `max 0 (start_height + dy)`, where
`(dx, dy)` is the current pointer minus the drag-start pointer; both values are
non-negative for every pointer position, and the state is left as it was. -/
theorem C2_resize_drag_clamped (wm : WindowManager) (e : XMotionEvent) (f : Window)
    (hmanaged : find wm.clients_ e.window = some f)
    (hprimary : e.state &&& Button1Mask = 0)
    (hsecondary : e.state &&& Button3Mask ≠ 0) :
    OnMotionNotify wm e =
        Outcome.ok
          [ Call.XResizeWindow f
              (max 0 (wm.drag_start_frame_size_.width + (e.x_root - wm.drag_start_pos_.x)))
              (max 0 (wm.drag_start_frame_size_.height + (e.y_root - wm.drag_start_pos_.y))),
            Call.XResizeWindow e.window
              (max 0 (wm.drag_start_frame_size_.width + (e.x_root - wm.drag_start_pos_.x)))
              (max 0 (wm.drag_start_frame_size_.height + (e.y_root - wm.drag_start_pos_.y))) ]
          wm
      ∧ 0 ≤ max 0 (wm.drag_start_frame_size_.width + (e.x_root - wm.drag_start_pos_.x))
      ∧ 0 ≤ max 0 (wm.drag_start_frame_size_.height + (e.y_root - wm.drag_start_pos_.y)) := by
  refine ⟨?_, le_max_left _ _, le_max_left _ _⟩
  have hw : ∀ a d : Int, a + max d (-a) = max 0 (a + d) := by
    intro a d
    rcases le_total d (-a) with h | h
    · rw [max_eq_right h, max_eq_left (by omega)]; omega
    · rw [max_eq_left h, max_eq_right (by omega)]
  simp only [OnMotionNotify, count_of_find hmanaged, at_of_find hmanaged, if_true, hprimary,
    ne_eq, not_true_eq_false, if_false, hsecondary, not_false_eq_true, Size.addVec,
    Position.sub, hw]

theorem C2_resize_drag_clamped_witness :
    OnMotionNotify resizeExample ⟨7, -5000, 130, 1024⟩ =
        Outcome.ok
          [ Call.XResizeWindow 70
              (max 0 (resizeExample.drag_start_frame_size_.width
                + ((-5000 : Int) - resizeExample.drag_start_pos_.x)))
              (max 0 (resizeExample.drag_start_frame_size_.height
                + ((130 : Int) - resizeExample.drag_start_pos_.y))),
            Call.XResizeWindow 7
              (max 0 (resizeExample.drag_start_frame_size_.width
                + ((-5000 : Int) - resizeExample.drag_start_pos_.x)))
              (max 0 (resizeExample.drag_start_frame_size_.height
                + ((130 : Int) - resizeExample.drag_start_pos_.y))) ]
          resizeExample
      ∧ 0 ≤ max 0 (resizeExample.drag_start_frame_size_.width
                + ((-5000 : Int) - resizeExample.drag_start_pos_.x))
      ∧ 0 ≤ max 0 (resizeExample.drag_start_frame_size_.height
                + ((130 : Int) - resizeExample.drag_start_pos_.y)) :=
  C2_resize_drag_clamped resizeExample ⟨7, -5000, 130, 1024⟩ 70 (by decide) (by decide)
    (by decide)

/-- C3: once `OnButtonPress` on a managed window has returned, having recorded
the pointer position of the press and the position `XGetGeometry` reported for
the frame, every `OnMotionNotify` on that window with the primary button held
issues exactly one call, a move of the frame to the recorded frame position
plus (current pointer minus recorded pointer), componentwise, and returns
with the very state the press left (client table and drag state untouched). -/
theorem C3_move_drag (r : Replies) (wm wm1 : WindowManager) (b : XButtonEvent)
    (hpress : (OnButtonPress r wm b).next = some wm1) :
    ∃ f g, find wm.clients_ b.window = some f ∧ r.geometry = some g
      ∧ wm1.clients_ = wm.clients_
      ∧ wm1.drag_start_pos_ = ⟨b.x_root, b.y_root⟩
      ∧ wm1.drag_start_frame_pos_ = ⟨g.x, g.y⟩
      ∧ ∀ m : XMotionEvent, m.window = b.window → m.state &&& Button1Mask ≠ 0 →
          OnMotionNotify wm1 m =
            Outcome.ok
              [Call.XMoveWindow f (g.x + (m.x_root - b.x_root)) (g.y + (m.y_root - b.y_root))]
              wm1 := by
  unfold OnButtonPress at hpress
  cases hc : count wm.clients_ b.window with
  | false => simp [hc, Outcome.abort] at hpress
  | true =>
    rw [hc] at hpress
    simp only [if_true] at hpress
    cases hg : r.geometry with
    | none => simp [hg, Outcome.abort] at hpress
    | some g =>
      rw [hg] at hpress
      simp only [Outcome.ok, Option.some.injEq] at hpress
      cases hf : find wm.clients_ b.window with
      | none =>
        rw [← count_false_iff] at hf
        rw [hf] at hc
        exact Bool.noConfusion hc
      | some f =>
        refine ⟨f, g, rfl, rfl, ?_, ?_, ?_, ?_⟩
        · rw [← hpress]
        · rw [← hpress]
        · rw [← hpress]
        · intro m hm h1
          have hf1 : find wm1.clients_ m.window = some f := by
            rw [← hpress, hm]; exact hf
          simp only [OnMotionNotify, count_of_find hf1, at_of_find hf1, if_true, h1, ne_eq,
            not_false_eq_true, Position.addVec, Position.sub]
          rw [← hpress]

theorem C3_move_drag_witness :
    ∃ f g, find resizeExample.clients_ 7 = some f ∧ pressReplies.geometry = some g
      ∧ resizeExample.clients_ = resizeExample.clients_
      ∧ resizeExample.drag_start_pos_ = ⟨100, 100⟩
      ∧ resizeExample.drag_start_frame_pos_ = ⟨g.x, g.y⟩
      ∧ ∀ m : XMotionEvent, m.window = 7 → m.state &&& Button1Mask ≠ 0 →
          OnMotionNotify resizeExample m =
            Outcome.ok
              [Call.XMoveWindow f (g.x + (m.x_root - 100)) (g.y + (m.y_root - 100))]
              resizeExample :=
  C3_move_drag pressReplies resizeExample resizeExample ⟨7, 100, 100, 8, 1⟩ (by decide)

/-! ## Framing -/

theorem find_append (l1 l2 : ClientTable) (k : Window) :
    find (l1 ++ l2) k = if k ∈ keys l1 then find l1 k else find l2 k := by
  induction l1 with
  | nil => simp [keys]
  | cons p rest ih =>
    obtain ⟨a, b⟩ := p
    by_cases ha : a = k
    · simp [find, keys, ha]
    · have hka : ¬ k = a := fun e => ha e.symm
      have ih2 : find (rest ++ l2) k
          = if k ∈ List.map Prod.fst rest then find rest k else find l2 k := ih
      simp only [List.cons_append, find, ha, if_false, keys, List.map_cons, List.mem_cons,
        hka, false_or]
      exact ih2

theorem find_assign_new (place : Window → ClientTable → Nat) (t : ClientTable)
    (w f k : Window) (hw : count t w = false) :
    find (assign place t w f) k = if k = w then some f else find t k := by
  have hnot : ∀ n : Nat, w ∉ keys (t.take n) := by
    intro n hmem
    have : w ∈ keys t := by
      simp only [keys] at hmem ⊢
      exact (List.map_subset _ (List.take_subset _ _)) hmem
    rw [← count_eq_true_iff, hw] at this
    exact Bool.noConfusion this
  simp only [assign, hw, Bool.false_eq_true, if_false]
  rw [find_append]
  by_cases hk : k = w
  · subst hk
    simp [hnot, find]
  · have hwk : ¬ w = k := fun e => hk e.symm
    simp only [find, hwk, if_false, hk]
    have h := find_append (t.take (place w t)) (t.drop (place w t)) k
    rw [List.take_append_drop] at h
    exact h.symm

/-- C6: for a window not in the table whose attributes have override_redirect
set or a map state other than IsViewable, `Frame(w, true)` issues only the
attribute query (no frame creation, save-set, reparent, map or grab call) and
returns with the state unchanged, whereas `Frame(w, false)` with the same
attributes creates a frame and returns with `w` mapped to it in the table. -/
theorem C6_preexisting_skip (place : Window → ClientTable → Nat) (r : Replies)
    (wm : WindowManager) (w : Window) (a : XWindowAttributes)
    (hnew : count wm.clients_ w = false)
    (hattrs : r.attrs = some a)
    (hskip : a.override_redirect = true ∨ a.map_state ≠ IsViewable) :
    Frame place r wm w true = Outcome.ok [Call.XGetWindowAttributes w] wm
      ∧ (∃ wm1, Frame place r wm w false
            = Outcome.ok (Call.XGetWindowAttributes w :: frameCalls r wm.root_ w a) wm1
          ∧ Call.XCreateSimpleWindow wm.root_ a.x a.y a.width a.height 3 0xff0000 0x0000ff
              r.frame ∈ frameCalls r wm.root_ w a
          ∧ find wm1.clients_ w = some r.frame) := by
  have hcond : (a.override_redirect || a.map_state != IsViewable) = true := by
    rcases hskip with h | h
    · simp [h]
    · simp [h]
  refine ⟨?_, ?_⟩
  · simp [Frame, hnew, hattrs, hcond]
  · refine ⟨{ wm with clients_ := assign place wm.clients_ w r.frame }, ?_, ?_, ?_⟩
    · simp [Frame, hnew, hattrs]
    · simp [frameCalls]
    · simp [find_assign_new place wm.clients_ w r.frame w hnew]

theorem C6_preexisting_skip_witness :
    Frame (fun _ _ => 0) hiddenReplies emptyManager 7 true
        = Outcome.ok [Call.XGetWindowAttributes 7] emptyManager
      ∧ (∃ wm1, Frame (fun _ _ => 0) hiddenReplies emptyManager 7 false
            = Outcome.ok
                (Call.XGetWindowAttributes 7
                  :: frameCalls hiddenReplies emptyManager.root_ 7 ⟨0, 0, 640, 480, false, 0⟩)
                wm1
          ∧ Call.XCreateSimpleWindow emptyManager.root_ 0 0 640 480 3 0xff0000 0x0000ff
              hiddenReplies.frame
                ∈ frameCalls hiddenReplies emptyManager.root_ 7 ⟨0, 0, 640, 480, false, 0⟩
          ∧ find wm1.clients_ 7 = some hiddenReplies.frame) :=
  C6_preexisting_skip (fun _ _ => 0) hiddenReplies emptyManager 7 ⟨0, 0, 640, 480, false, 0⟩
    (by decide) rfl (Or.inr (by decide))

/-! ## Unmap and configure -/

/-- C7: `OnUnmapNotify` is exactly `Unframe(e.window)` when `e.window` is in the
table and `e.event` is not the root, and in that case it issues the four calls
of `Unframe`; when `e.event` is the root, or when `e.window` is not in the
table, it issues no call and leaves the state (the table included) unchanged. -/
theorem C7_unmap_notify (wm : WindowManager) (e : XUnmapEvent) :
    (count wm.clients_ e.window = true ∧ e.event ≠ wm.root_ →
        OnUnmapNotify wm e = Unframe wm e.window
          ∧ (OnUnmapNotify wm e).calls =
              [ Call.XUnmapWindow (at_ wm.clients_ e.window),
                Call.XReparentWindow e.window wm.root_ 0 0,
                Call.XRemoveFromSaveSet e.window,
                Call.XDestroyWindow (at_ wm.clients_ e.window) ]
          ∧ (OnUnmapNotify wm e).next
              = some { wm with clients_ := erase wm.clients_ e.window })
      ∧ (e.event = wm.root_ → OnUnmapNotify wm e = Outcome.ok [] wm)
      ∧ (count wm.clients_ e.window = false → OnUnmapNotify wm e = Outcome.ok [] wm) := by
  refine ⟨?_, ?_, ?_⟩
  · rintro ⟨hc, hr⟩
    simp [OnUnmapNotify, Unframe, hc, hr, Outcome.ok]
  · intro hr
    cases hc : count wm.clients_ e.window <;> simp [OnUnmapNotify, hc, hr]
  · intro hc
    simp [OnUnmapNotify, hc]

/-- C8: `OnConfigureRequest` on a window not in the table issues exactly one
configure call, on the window itself; on a window in the table with frame `f`
it issues exactly two, first on `f`, then on the window.  Every call carries the
event's value mask and the changes copied field by field from the event, and the
state is returned unchanged. -/
theorem C8_configure_request (wm : WindowManager) (e : XConfigureRequestEvent) :
    (find wm.clients_ e.window = none →
        OnConfigureRequest wm e =
          Outcome.ok
            [Call.XConfigureWindow e.window e.value_mask
              ⟨e.x, e.y, e.width, e.height, e.border_width, e.above, e.detail⟩]
            wm)
      ∧ (∀ f, find wm.clients_ e.window = some f →
        OnConfigureRequest wm e =
          Outcome.ok
            [ Call.XConfigureWindow f e.value_mask
                ⟨e.x, e.y, e.width, e.height, e.border_width, e.above, e.detail⟩,
              Call.XConfigureWindow e.window e.value_mask
                ⟨e.x, e.y, e.width, e.height, e.border_width, e.above, e.detail⟩ ]
            wm) := by
  refine ⟨?_, ?_⟩
  · intro h
    rw [← count_false_iff] at h
    simp [OnConfigureRequest, h, changesOf]
  · intro f h
    simp [OnConfigureRequest, count_of_find h, at_of_find h, changesOf]

/-! ## Key-driven policy -/

theorem stdFind_ge (first : Nat) (atoms : List Atom) (value : Atom) :
    first ≤ stdFind first atoms value := by
  induction atoms generalizing first with
  | nil => simp [stdFind]
  | cons a rest ih =>
    simp only [stdFind]
    split
    · exact le_refl _
    · exact le_trans (Nat.le_add_right _ _) (ih _)

/-- Whenever `XGetWMProtocols` succeeds (it then hands back a non-null array),
the test of lines 376-386 is true, whatever the array holds. -/
theorem closeGracefully_of_query_ok (r : Replies) (wm : WindowManager) (addr : Nat)
    (atoms : List Atom) (hr : r.protocols = some (addr, atoms)) (haddr : addr ≠ 0) :
    closeGracefully r wm = true := by
  have h := stdFind_ge addr atoms wm.WM_DELETE_WINDOW
  simp only [closeGracefully, hr, bne_iff_ne, ne_eq]
  omega

/-- The close shortcut on a client whose protocol query succeeds: one delete
message to the window, its data carrying the delete atom, and no kill-client
call (the handler aborts after the send when `XSendEvent` reports failure). -/
theorem OnKeyPress_close_query_ok (r : Replies) (wm : WindowManager) (e : XKeyEvent)
    (addr : Nat) (atoms : List Atom)
    (hmod : e.state &&& Mod1Mask ≠ 0) (hkey : e.keycode = r.keysymToKeycode XK_F4)
    (hr : r.protocols = some (addr, atoms)) (haddr : addr ≠ 0) :
    (OnKeyPress r wm e).calls =
      [ Call.XKeysymToKeycode XK_F4,
        Call.XGetWMProtocols e.window,
        Call.XSendEvent e.window false 0
          ⟨ClientMessage, wm.WM_PROTOCOLS, e.window, 32, wm.WM_DELETE_WINDOW⟩ ] := by
  unfold OnKeyPress
  rw [if_pos hmod, if_pos hkey, closeGracefully_of_query_ok r wm addr atoms hr haddr, if_pos rfl]
  cases r.sendStatus <;> rfl

/-- The close shortcut on a client whose protocol query fails: one kill-client
call on the window and no message. -/
theorem OnKeyPress_close_query_failed (r : Replies) (wm : WindowManager) (e : XKeyEvent)
    (hmod : e.state &&& Mod1Mask ≠ 0) (hkey : e.keycode = r.keysymToKeycode XK_F4)
    (hr : r.protocols = none) :
    OnKeyPress r wm e =
      Outcome.ok
        [ Call.XKeysymToKeycode XK_F4,
          Call.XGetWMProtocols e.window,
          Call.XKillClient e.window ]
        wm := by
  unfold OnKeyPress
  rw [if_pos hmod, if_pos hkey]
  simp [closeGracefully, hr]

/-- C1 (the code at the failing input): Alt+F4 on window 7, whose protocol query
succeeds with the list [301] that does not contain the delete atom 300.  The
handler sends the delete message and issues no kill-client call. -/
theorem C1_close_not_advertised_still_sends :
    closeExample.WM_DELETE_WINDOW = 300
      ∧ closeExample.WM_DELETE_WINDOW ∉ [(301 : Atom)]
      ∧ OnKeyPress takeFocusOnlyReplies closeExample ⟨7, 8, 70⟩ =
          Outcome.ok
            [ Call.XKeysymToKeycode XK_F4,
              Call.XGetWMProtocols 7,
              Call.XSendEvent 7 false 0 ⟨ClientMessage, 300, 7, 32, 300⟩ ]
            closeExample
      ∧ Call.XKillClient 7 ∉ (OnKeyPress takeFocusOnlyReplies closeExample ⟨7, 8, 70⟩).calls := by
  decide

/-- C4: Alt+Tab on window `w` (the key pressed being the cycle key and not the
close key).  When `w` is in the table and an entry follows it in iteration
order, the handler raises that entry's frame and focuses that entry's window;
when `w` is the last entry it raises and focuses the first entry; when `w` is
the only entry it raises `w`'s own frame and focuses `w`; the state is returned
unchanged.  When `w` is not in the table the handler aborts, having issued no
call but the two keycode lookups. -/
theorem C4_cycle_focus (r : Replies) (wm : WindowManager) (e : XKeyEvent)
    (hmod : e.state &&& Mod1Mask ≠ 0)
    (hcycle : e.keycode = r.keysymToKeycode XK_Tab)
    (hclose : e.keycode ≠ r.keysymToKeycode XK_F4) :
    (∀ before f nxt after, wm.clients_ = before ++ (e.window, f) :: nxt :: after →
        e.window ∉ keys before →
        OnKeyPress r wm e =
          Outcome.ok
            [ Call.XKeysymToKeycode XK_F4, Call.XKeysymToKeycode XK_Tab,
              Call.XRaiseWindow nxt.2,
              Call.XSetInputFocus nxt.1 RevertToPointerRoot CurrentTime ]
            wm)
      ∧ (∀ first middle f, wm.clients_ = first :: middle ++ [(e.window, f)] →
        e.window ∉ keys (first :: middle) →
        OnKeyPress r wm e =
          Outcome.ok
            [ Call.XKeysymToKeycode XK_F4, Call.XKeysymToKeycode XK_Tab,
              Call.XRaiseWindow first.2,
              Call.XSetInputFocus first.1 RevertToPointerRoot CurrentTime ]
            wm)
      ∧ (∀ f, wm.clients_ = [(e.window, f)] →
        OnKeyPress r wm e =
          Outcome.ok
            [ Call.XKeysymToKeycode XK_F4, Call.XKeysymToKeycode XK_Tab,
              Call.XRaiseWindow f,
              Call.XSetInputFocus e.window RevertToPointerRoot CurrentTime ]
            wm)
      ∧ (e.window ∉ keys wm.clients_ →
        OnKeyPress r wm e =
          Outcome.abort [Call.XKeysymToKeycode XK_F4, Call.XKeysymToKeycode XK_Tab]) := by
  have hsucc : ∀ (first : Window × Window) (before rest : ClientTable) (f : Window),
      e.window ∉ keys before →
      successor first (before ++ (e.window, f) :: rest) e.window
        = some (rest.headD first) := by
    intro first before rest f hb
    induction before with
    | nil => cases rest <;> simp [successor]
    | cons p tl ih =>
      obtain ⟨k, g⟩ := p
      simp only [keys, List.map_cons, List.mem_cons, not_or] at hb
      have hk : ¬ k = e.window := fun h => hb.1 h.symm
      simp only [List.cons_append, successor, hk, if_false]
      exact ih hb.2
  have hnone : ∀ (first : Window × Window) (t : ClientTable),
      e.window ∉ keys t → successor first t e.window = none := by
    intro first t ht
    induction t with
    | nil => rfl
    | cons p tl ih =>
      obtain ⟨k, g⟩ := p
      simp only [keys, List.map_cons, List.mem_cons, not_or] at ht
      have hk : ¬ k = e.window := fun h => ht.1 h.symm
      simp only [successor, hk, if_false]
      exact ih ht.2
  have hstep : OnKeyPress r wm e =
      match successor (wm.clients_.headD (0, 0)) wm.clients_ e.window with
      | none => Outcome.abort [Call.XKeysymToKeycode XK_F4, Call.XKeysymToKeycode XK_Tab]
      | some i =>
        Outcome.ok
          [ Call.XKeysymToKeycode XK_F4, Call.XKeysymToKeycode XK_Tab,
            Call.XRaiseWindow i.2,
            Call.XSetInputFocus i.1 RevertToPointerRoot CurrentTime ]
          wm := by
    unfold OnKeyPress
    rw [if_pos hmod, if_neg hclose, if_pos hcycle]
  refine ⟨?_, ?_, ?_, ?_⟩
  · intro before f nxt after ht hb
    rw [hstep, ht, hsucc _ before (nxt :: after) f hb]
    rfl
  · intro first middle f ht hb
    rw [hstep, ht]
    have := hsucc first (first :: middle) [] f hb
    simp only [List.cons_append] at this ⊢
    rw [List.headD_cons, this]
    rfl
  · intro f ht
    rw [hstep, ht]
    simp [successor]
  · intro ht
    rw [hstep, hnone _ _ ht]

theorem C4_cycle_focus_witness :
    OnKeyPress takeFocusOnlyReplies cycleExample ⟨9, 8, 23⟩ =
      Outcome.ok
        [ Call.XKeysymToKeycode XK_F4, Call.XKeysymToKeycode XK_Tab,
          Call.XRaiseWindow 70,
          Call.XSetInputFocus 7 RevertToPointerRoot CurrentTime ]
        cycleExample :=
  (C4_cycle_focus takeFocusOnlyReplies cycleExample ⟨9, 8, 23⟩
    (by decide) (by decide) (by decide)).2.1 (7, 70) [] 90 rfl (by decide)

/-! ## The frame / unframe lifecycle -/

theorem erase_cons (a b : Window) (rest : ClientTable) (w : Window) :
    erase ((a, b) :: rest) w = if a = w then erase rest w else (a, b) :: erase rest w := by
  by_cases ha : a = w <;> simp [erase, List.filter_cons, ha]

theorem find_erase (t : ClientTable) (w k : Window) :
    find (erase t w) k = if k = w then none else find t k := by
  induction t with
  | nil => simp [erase, find]
  | cons p rest ih =>
    obtain ⟨a, b⟩ := p
    rw [erase_cons]
    by_cases ha : a = w
    · rw [if_pos ha, ih]
      by_cases hk : k = w
      · rw [if_pos hk, if_pos hk]
      · have hak : ¬ a = k := fun e => hk (e.symm.trans ha)
        rw [if_neg hk, if_neg hk]
        simp only [find, hak, if_false]
    · rw [if_neg ha]
      simp only [find]
      by_cases hak : a = k
      · have hk : ¬ k = w := fun e => ha (hak.trans e)
        rw [if_pos hak, if_pos hak, if_neg hk]
      · rw [if_neg hak, if_neg hak, ih]

theorem erase_assign_new (place : Window → ClientTable → Nat) (t : ClientTable)
    (w f : Window) (hw : count t w = false) :
    erase (assign place t w f) w = t := by
  have hall : ∀ p ∈ t, (p.1 != w) = true := by
    intro p hp
    simp only [bne_iff_ne, ne_eq]
    intro e
    have : w ∈ keys t := by
      rw [← e]
      exact List.mem_map_of_mem Prod.fst hp
    rw [← count_eq_true_iff, hw] at this
    exact Bool.noConfusion this
  simp only [assign, hw, Bool.false_eq_true, if_false, erase, List.filter_append]
  have h1 : List.filter (fun p => p.1 != w) (t.take (place w t)) = t.take (place w t) :=
    List.filter_eq_self.mpr (fun p hp => hall p (List.take_subset _ _ hp))
  have h2 : List.filter (fun p => p.1 != w) (t.drop (place w t)) = t.drop (place w t) :=
    List.filter_eq_self.mpr (fun p hp => hall p (List.drop_subset _ _ hp))
  rw [h1]
  simp [List.filter, h2]

theorem andThen_next_some {o : Outcome} {k : WindowManager → Outcome} {wm2 : WindowManager}
    (h : (o.andThen k).next = some wm2) :
    ∃ wm1, o.next = some wm1 ∧ (k wm1).next = some wm2 := by
  unfold Outcome.andThen at h
  cases ho : o.next with
  | none => rw [ho] at h; simp only at h; rw [ho] at h; exact Option.noConfusion h
  | some wm1 => rw [ho] at h; exact ⟨wm1, rfl, h⟩

theorem Frame_next (place : Window → ClientTable → Nat) (r : Replies)
    (wm wm1 : WindowManager) (w : Window) (pre : Bool)
    (h : (Frame place r wm w pre).next = some wm1) :
    count wm.clients_ w = false
      ∧ (wm1 = wm ∨ wm1 = { wm with clients_ := assign place wm.clients_ w r.frame }) := by
  unfold Frame at h
  cases hc : count wm.clients_ w with
  | true => simp [hc, Outcome.abort] at h
  | false =>
    refine ⟨rfl, ?_⟩
    rw [hc] at h
    simp only [Bool.false_eq_true, if_false] at h
    cases ha : r.attrs with
    | none => simp [ha, Outcome.abort] at h
    | some a =>
      rw [ha] at h
      simp only at h
      split at h
      · left; simpa [Outcome.ok] using h.symm
      · right; simpa [Outcome.ok] using h.symm

theorem OnMotionNotify_next (wm wm1 : WindowManager) (e : XMotionEvent)
    (h : (OnMotionNotify wm e).next = some wm1) : wm1 = wm := by
  unfold OnMotionNotify at h
  cases hc : count wm.clients_ e.window with
  | false => simp [hc, Outcome.abort] at h
  | true =>
    rw [hc] at h
    simp only [if_true] at h
    split at h
    · simpa [Outcome.ok] using h.symm
    · split at h
      · simpa [Outcome.ok] using h.symm
      · simpa [Outcome.ok] using h.symm

theorem OnKeyPress_next (r : Replies) (wm wm1 : WindowManager) (e : XKeyEvent)
    (h : (OnKeyPress r wm e).next = some wm1) : wm1 = wm := by
  unfold OnKeyPress at h
  split at h
  · split at h
    · split at h
      · split at h
        · simpa [Outcome.ok] using h.symm
        · simp [Outcome.abort] at h
      · simpa [Outcome.ok] using h.symm
    · split at h
      · split at h
        · simp [Outcome.abort] at h
        · simpa [Outcome.ok] using h.symm
      · simpa [Outcome.ok] using h.symm
  · simpa [Outcome.ok] using h.symm

/-- What one dispatched event can do to the client table: nothing, one
insertion by `Frame` of a window that was absent, or one removal by `Unframe`
on an UnmapNotify for a managed window with an event window other than root. -/
theorem dispatch_table (place : Window → ClientTable → Nat) (r : Replies)
    (wm wm1 : WindowManager) (e : XEvent)
    (h : (dispatch place r wm e).next = some wm1) :
    wm1.root_ = wm.root_ ∧
    (wm1.clients_ = wm.clients_
      ∨ (∃ m, e = XEvent.MapRequest m ∧ count wm.clients_ m.window = false
          ∧ wm1.clients_ = assign place wm.clients_ m.window r.frame)
      ∨ (∃ u, e = XEvent.UnmapNotify u ∧ count wm.clients_ u.window = true
          ∧ u.event ≠ wm.root_ ∧ wm1.clients_ = erase wm.clients_ u.window)) := by
  cases e with
  | UnmapNotify u =>
    simp only [dispatch, OnUnmapNotify] at h
    cases hc : count wm.clients_ u.window with
    | false =>
      simp only [hc, Bool.not_false, if_true, Outcome.ok, Option.some.injEq] at h
      subst h; exact ⟨rfl, Or.inl rfl⟩
    | true =>
      simp only [hc, Bool.not_true, Bool.false_eq_true, if_false] at h
      by_cases hr : u.event = wm.root_
      · simp only [hr, if_true, Outcome.ok, Option.some.injEq] at h
        subst h; exact ⟨rfl, Or.inl rfl⟩
      · simp only [hr, if_false, Unframe, hc, if_true, Outcome.ok, Option.some.injEq] at h
        subst h
        exact ⟨rfl, Or.inr (Or.inr ⟨u, rfl, hc, hr, rfl⟩)⟩
  | MapRequest m =>
    simp only [dispatch, OnMapRequest] at h
    obtain ⟨wm2, h2, h3⟩ := andThen_next_some h
    simp only [Outcome.ok, Option.some.injEq] at h3
    subst h3
    obtain ⟨hc, hw | hw⟩ := Frame_next place r wm wm2 m.window false h2
    · subst hw; exact ⟨rfl, Or.inl rfl⟩
    · subst hw; exact ⟨rfl, Or.inr (Or.inl ⟨m, rfl, hc, rfl⟩)⟩
  | ConfigureRequest c =>
    simp only [dispatch, OnConfigureRequest] at h
    split at h <;>
    · simp only [Outcome.ok, Option.some.injEq] at h
      subst h; exact ⟨rfl, Or.inl rfl⟩
  | ButtonPress b =>
    simp only [dispatch, OnButtonPress] at h
    split at h
    · split at h
      · simp [Outcome.abort] at h
      · simp only [Outcome.ok, Option.some.injEq] at h
        subst h; exact ⟨rfl, Or.inl rfl⟩
    · simp [Outcome.abort] at h
  | MotionNotify m =>
    simp only [dispatch] at h
    obtain ⟨wm2, h2, h3⟩ := andThen_next_some h
    simp only [Outcome.ok, Option.some.injEq] at h2
    subst h2
    have := OnMotionNotify_next _ _ _ h3
    subst this; exact ⟨rfl, Or.inl rfl⟩
  | KeyPress k =>
    simp only [dispatch] at h
    have := OnKeyPress_next _ _ _ _ h
    subst this; exact ⟨rfl, Or.inl rfl⟩
  | CreateNotify _ | DestroyNotify _ | ReparentNotify _ | MapNotify _ | ConfigureNotify _
  | ButtonRelease _ | KeyRelease _ | Other _ =>
    simp only [dispatch, Outcome.ok, Option.some.injEq] at h
    subst h; exact ⟨rfl, Or.inl rfl⟩

theorem perm_assign_new (place : Window → ClientTable → Nat) (t : ClientTable)
    (w f : Window) (hw : count t w = false) :
    (assign place t w f).Perm ((w, f) :: t) := by
  simp only [assign, hw, Bool.false_eq_true, if_false]
  have h : (t.take (place w t) ++ (w, f) :: t.drop (place w t)).Perm
      ((w, f) :: (t.take (place w t) ++ t.drop (place w t))) := List.perm_middle
  rw [List.take_append_drop] at h
  exact h

/-- C5: a `Frame(w, pre)` on a window absent from the table that gets past the
skip test issues exactly one frame-creation call, returning `f`, and leaves the
table with the single new entry `w -> f` (every other lookup unchanged).  From
any state in which `w` maps to `f`, every dispatched event whose handler returns,
other than an UnmapNotify that unframes `w`, leaves `w` mapped to `f`; and
`Unframe(w)` there hides `f`, reparents `w` to the root, removes `w` from the
save set, destroys `f`, and removes exactly the entry of `w`.  `Unframe(w)`
right after the `Frame` returns with the state before the `Frame`; and
`Unframe(w)` on the state where `w` is absent aborts without any call. -/
theorem C5_frame_lifecycle (place : Window → ClientTable → Nat) (r : Replies)
    (wm : WindowManager) (w : Window) (pre : Bool) (a : XWindowAttributes)
    (hnew : count wm.clients_ w = false)
    (hattrs : r.attrs = some a)
    (hnoskip : (pre && (a.override_redirect || a.map_state != IsViewable)) = false) :
    Frame place r wm w pre =
        Outcome.ok (Call.XGetWindowAttributes w :: frameCalls r wm.root_ w a)
          { wm with clients_ := assign place wm.clients_ w r.frame }
      ∧ (Call.XGetWindowAttributes w :: frameCalls r wm.root_ w a).filterMap Call.created
          = [r.frame]
      ∧ (∀ k, find (assign place wm.clients_ w r.frame) k
          = if k = w then some r.frame else find wm.clients_ k)
      ∧ (assign place wm.clients_ w r.frame).Perm ((w, r.frame) :: wm.clients_)
      ∧ (∀ (r2 : Replies) (wm2 wm3 : WindowManager) (e : XEvent) (f : Window),
          find wm2.clients_ w = some f → unframes wm2.root_ w e = false →
          (dispatch place r2 wm2 e).next = some wm3 → find wm3.clients_ w = some f)
      ∧ (∀ (wm2 : WindowManager) (f : Window), find wm2.clients_ w = some f →
          Unframe wm2 w =
              Outcome.ok
                [ Call.XUnmapWindow f,
                  Call.XReparentWindow w wm2.root_ 0 0,
                  Call.XRemoveFromSaveSet w,
                  Call.XDestroyWindow f ]
                { wm2 with clients_ := erase wm2.clients_ w }
            ∧ ∀ k, find (erase wm2.clients_ w) k
                = if k = w then none else find wm2.clients_ k)
      ∧ (Unframe { wm with clients_ := assign place wm.clients_ w r.frame } w).next = some wm
      ∧ (Unframe { wm with clients_ := assign place wm.clients_ w r.frame } w).calls.filterMap
          Call.destroyed = [r.frame]
      ∧ Unframe wm w = Outcome.abort [] := by
  have hfind := find_assign_new place wm.clients_ w r.frame
  have hself : find (assign place wm.clients_ w r.frame) w = some r.frame := by
    rw [hfind w hnew, if_pos rfl]
  refine ⟨?_, ?_, fun k => hfind k hnew, perm_assign_new place _ w _ hnew, ?_, ?_, ?_, ?_, ?_⟩
  · unfold Frame
    rw [hnew, hattrs]
    simp only [Bool.false_eq_true, if_false]
    rw [hnoskip]
    simp
  · simp [frameCalls, Call.created]
  · intro r2 wm2 wm3 e f hf hun h
    obtain ⟨_, h1 | ⟨m, he, hc, h1⟩ | ⟨u, he, hc, hr, h1⟩⟩ := dispatch_table place r2 wm2 wm3 e h
    · rw [h1]; exact hf
    · have hne : ¬ w = m.window := by
        intro e2
        rw [← e2, count_of_find hf] at hc
        exact Bool.noConfusion hc
      rw [h1, find_assign_new place _ _ _ _ hc, if_neg hne]
      exact hf
    · have hne : ¬ w = u.window := by
        intro e2
        rw [he] at hun
        simp [unframes, e2, hr] at hun
      rw [h1, find_erase, if_neg hne]
      exact hf
  · intro wm2 f hf
    refine ⟨?_, fun k => find_erase _ _ _⟩
    simp [Unframe, count_of_find hf, at_of_find hf]
  · simp only [Unframe, count_of_find hself, if_true, Outcome.ok, erase_assign_new place _ _ _ hnew]
  · simp [Unframe, count_of_find hself, at_of_find hself, Outcome.ok, Call.destroyed]
  · simp [Unframe, hnew]

theorem C5_frame_lifecycle_witness :
    Frame (fun _ _ => 0) hiddenReplies emptyManager 7 false =
      Outcome.ok
        (Call.XGetWindowAttributes 7
          :: frameCalls hiddenReplies emptyManager.root_ 7 ⟨0, 0, 640, 480, false, 0⟩)
        { emptyManager with
          clients_ := assign (fun _ _ => 0) emptyManager.clients_ 7 hiddenReplies.frame } :=
  (C5_frame_lifecycle (fun _ _ => 0) hiddenReplies emptyManager 7 false
    ⟨0, 0, 640, 480, false, 0⟩ (by decide) rfl (by decide)).1

/-! ## Startup -/

theorem find_frame_mem {t : ClientTable} {w f : Window} (h : find t w = some f) :
    f ∈ frames t :=
  List.mem_map_of_mem Prod.snd (find_mem h)

end PantherWM
